import Mathlib

/-!
# cylon: the agent's HTTP server (server.go)

A shallow embedding of `server.go`: the `Server` record, its four inbound
handlers (`status`, `start`, `end`, `think`), the error boundary
`makeHttpHandler`, and the outbound `Join` handshake.

Modelling conventions.

* Go strings are Lean strings (text, that is valid UTF-8).
* An `error` is its message (`err.Error()`); a nil error is `none`.
* The standard-library objects the file drives are modelled by the part of
  their documented behaviour the file uses: the `net/http` response writer,
  a `chan bool`, `net/url`, `encoding/json` string quoting.
* What `server.go` takes from outside is an explicit parameter of the
  function that uses it: the address parser and the network call of `Join`,
  and the JSON codec of the two types (`RobotState`, the result of
  `AI.Think`) that are declared in other files of the package. The
  properties of `Join` hold for every parser; `Parse` below, a transcription
  of `url.Parse`, serves the concrete runs.
* Effects are explicit: a handler maps the receiver, the response writer and
  the `World` (channel heap, decision component state, log, outbound calls)
  to their values after the call, together with how the call ended.
-/

namespace Cylon

deriving instance DecidableEq for Except

/-! ## net/http: headers and the response writer -/

/-- The `http.Header` map, as an association list from a key to its values.
Keys are compared as written: every key `server.go` and `http.Error` use is
already in canonical MIME form. -/
structure Header where
  entries : List (String × List String)
deriving DecidableEq, Repr

/-- Values stored under `key` (`h[key]`, `Header.Values`). -/
def Header.Values (h : Header) (key : String) : List String :=
  match h.entries.find? (fun e => e.1 == key) with
  | some e => e.2
  | none => []

/-- First value stored under `key`, or the empty string (`Header.Get`). -/
def Header.Get (h : Header) (key : String) : String :=
  (h.Values key).headD ""

/-- Appends `value` to the values of `key` in an entry list. -/
def Header.addEntry (key value : String) :
    List (String × List String) → List (String × List String)
  | [] => [(key, [value])]
  | e :: es => if e.1 == key then (e.1, e.2 ++ [value]) :: es else e :: Header.addEntry key value es

/-- The call `h.Add(key, value)`: appends to any existing values of `key`. -/
def Header.Add (h : Header) (key value : String) : Header :=
  ⟨Header.addEntry key value h.entries⟩

/-- The call `h.Del(key)`. -/
def Header.Del (h : Header) (key : String) : Header :=
  ⟨h.entries.filter (fun e => !(e.1 == key))⟩

/-- The call `h.Set(key, value)`: replaces any existing values of `key`. -/
def Header.Set (h : Header) (key value : String) : Header :=
  ⟨(h.Del key).entries ++ [(key, [value])]⟩

/-- The status `http.StatusOK`. -/
def StatusOK : Nat := 200

/-- The status `http.StatusInternalServerError`. -/
def StatusInternalServerError : Nat := 500

/-- The server side of one response (`http.ResponseWriter`).
`handlerHeader` is the map `w.Header()` returns; `WriteHeader` freezes a
copy of it in `sentHeader` together with the status; `body` collects what
`Write` was given. -/
structure ResponseWriter where
  handlerHeader : Header
  wroteHeader : Bool
  status : Nat
  sentHeader : Header
  body : String
deriving DecidableEq, Repr

/-- The writer handed to a handler for a new request. -/
def ResponseWriter.new : ResponseWriter :=
  { handlerHeader := ⟨[]⟩, wroteHeader := false, status := 0, sentHeader := ⟨[]⟩, body := "" }

/-- The call `w.WriteHeader(code)`: the first call fixes the status and the
headers that are sent; a later call is ignored. -/
def ResponseWriter.WriteHeader (w : ResponseWriter) (code : Nat) : ResponseWriter :=
  if w.wroteHeader then w
  else { w with wroteHeader := true, status := code, sentHeader := w.handlerHeader }

/-- The call `w.Write(data)`: sends the header with status 200 first when
`WriteHeader` has not been called, then appends `data` to the body. -/
def ResponseWriter.Write (w : ResponseWriter) (data : String) : ResponseWriter :=
  let w1 := if w.wroteHeader then w else w.WriteHeader StatusOK
  { w1 with body := w1.body ++ data }

/-- What `net/http` does when the handler has returned: a response whose
header was never written goes out with status 200. -/
def ResponseWriter.finishRequest (w : ResponseWriter) : ResponseWriter :=
  if w.wroteHeader then w else w.WriteHeader StatusOK

/-- The call `http.Error(w, msg, code)`: a plain-text reply made of the
message and a newline. -/
def httpErrorReply (w : ResponseWriter) (msg : String) (code : Nat) : ResponseWriter :=
  let w1 := { w with handlerHeader := w.handlerHeader.Set "Content-Type" "text/plain; charset=utf-8" }
  let w2 := { w1 with handlerHeader := w1.handlerHeader.Set "X-Content-Type-Options" "nosniff" }
  (w2.WriteHeader code).Write (msg ++ "\n")

/-- An inbound request: method, path and body. -/
structure Request where
  Method : String
  Path : String
  Body : String
deriving DecidableEq, Repr

/-! ## A `chan bool` -/

/-- State of a Go channel of booleans: `cap` buffer slots of which `buffered`
are in use, `recvq` receivers parked in a receive, and the log `sent` of the
values whose send has completed. -/
structure Chan where
  isNil : Bool
  closed : Bool
  cap : Nat
  buffered : Nat
  recvq : Nat
  sent : List Bool
deriving DecidableEq, Repr

/-- How a send statement ends. -/
inductive SendResult where
  | ok (c : Chan)
  | blocks
  | panics (msg : String)
deriving DecidableEq, Repr

/-- The statement `c <- v` (Go's channel send): a nil channel blocks for
ever, a closed one panics, a parked receiver takes the value at once, a free
buffer slot stores it, and otherwise the sender blocks. -/
def Chan.send (c : Chan) (v : Bool) : SendResult :=
  if c.isNil then .blocks
  else if c.closed then .panics "send on closed channel"
  else if 0 < c.recvq then .ok { c with recvq := c.recvq - 1, sent := c.sent ++ [v] }
  else if c.buffered < c.cap then .ok { c with buffered := c.buffered + 1, sent := c.sent ++ [v] }
  else .blocks

/-- The channel `make(chan bool, n)` with `r` receivers already waiting. -/
def Chan.make (n r : Nat) : Chan :=
  { isNil := false, closed := false, cap := n, buffered := 0, recvq := r, sent := [] }

/-- Number of sends the channel can still complete without a new receiver. -/
def Chan.room (c : Chan) : Nat :=
  if c.isNil || c.closed then 0 else c.recvq + (c.cap - c.buffered)

/-! ## net/url -/

/-- UTF-8 bytes of one character. -/
def utf8EncodeChar (c : Char) : List Nat :=
  let n := c.toNat
  if n < 0x80 then [n]
  else if n < 0x800 then [0xC0 + n / 64, 0x80 + n % 64]
  else if n < 0x10000 then [0xE0 + n / 4096, 0x80 + n / 64 % 64, 0x80 + n % 64]
  else [0xF0 + n / 262144, 0x80 + n / 4096 % 64, 0x80 + n / 64 % 64, 0x80 + n % 64]

/-- The bytes of a Go string holding the text `cs`. -/
def utf8Bytes (cs : List Char) : List Nat :=
  cs.flatMap utf8EncodeChar

/-- Reads bytes as UTF-8 without checking them (`fuel` bounds the steps). -/
def utf8DecodeLoose : Nat → List Nat → List Char
  | 0, _ => []
  | _, [] => []
  | fuel + 1, b0 :: rest =>
    if b0 < 0xC0 then Char.ofNat b0 :: utf8DecodeLoose fuel rest
    else if b0 < 0xE0 then
      match rest with
      | b1 :: r1 => Char.ofNat ((b0 % 32) * 64 + b1 % 64) :: utf8DecodeLoose fuel r1
      | _ => []
    else if b0 < 0xF0 then
      match rest with
      | b1 :: b2 :: r2 =>
        Char.ofNat ((b0 % 16) * 4096 + (b1 % 64) * 64 + b2 % 64) :: utf8DecodeLoose fuel r2
      | _ => []
    else
      match rest with
      | b1 :: b2 :: b3 :: r3 =>
        Char.ofNat ((b0 % 8) * 262144 + (b1 % 64) * 4096 + (b2 % 64) * 64 + b3 % 64) ::
          utf8DecodeLoose fuel r3
      | _ => []

/-- The text a byte string holds, when the bytes are valid UTF-8. -/
def utf8Decode (bs : List Nat) : Option (List Char) :=
  let cs := utf8DecodeLoose bs.length bs
  if utf8Bytes cs = bs then some cs else none

/-- The byte `b` is the ASCII code of one of the characters of `s`. -/
def byteIn (b : Nat) (s : String) : Bool :=
  s.toList.any (fun c => c.toNat == b)

/-- The byte is an ASCII letter or digit. -/
def isAlnum (c : Nat) : Bool :=
  (97 ≤ c && c ≤ 122) || (65 ≤ c && c ≤ 90) || (48 ≤ c && c ≤ 57)

/-- The places of a URL that are escaped differently (`encoding`). -/
inductive Encoding where
  | encodePath
  | encodePathSegment
  | encodeHost
  | encodeZone
  | encodeUserPassword
  | encodeQueryComponent
  | encodeFragment
deriving DecidableEq, Repr

open Encoding

/-- The function `shouldEscape` of net/url. -/
def shouldEscape (c : Nat) (mode : Encoding) : Bool :=
  if isAlnum c then false
  else if (mode == encodeHost || mode == encodeZone) && byteIn c "!$&'()*+,;=:[]<>\"" then false
  else if byteIn c "-_.~" then false
  else if byteIn c "$&+,/:;=?@" then
    match mode with
    | encodePath => c == 63
    | encodePathSegment => c == 47 || c == 59 || c == 44 || c == 63
    | encodeUserPassword => c == 64 || c == 47 || c == 63 || c == 58
    | encodeQueryComponent => true
    | encodeFragment => false
    | _ => true
  else if mode == encodeFragment && byteIn c "!()*" then false
  else true

/-- Upper-case hexadecimal digit of a value below 16. -/
def upperhex (n : Nat) : Char :=
  "0123456789ABCDEF".toList.getD n '0'

/-- The escape `%XX` of one byte. -/
def pctByte (b : Nat) : List Char :=
  ['%', upperhex (b / 16), upperhex (b % 16)]

/-- One byte of the input of `escape`. -/
def escapeByte (mode : Encoding) (b : Nat) : List Char :=
  if b == 32 && mode == encodeQueryComponent then ['+']
  else if shouldEscape b mode then pctByte b
  else [Char.ofNat b]

/-- The function `escape` of net/url. -/
def escape (s : List Char) (mode : Encoding) : List Char :=
  (utf8Bytes s).flatMap (escapeByte mode)

/-- The byte is a hexadecimal digit (`ishex`). -/
def ishex (c : Nat) : Bool :=
  (48 ≤ c && c ≤ 57) || (97 ≤ c && c ≤ 102) || (65 ≤ c && c ≤ 70)

/-- Value of a hexadecimal digit (`unhex`). -/
def unhex (c : Nat) : Nat :=
  if 48 ≤ c && c ≤ 57 then c - 48
  else if 97 ≤ c && c ≤ 102 then c - 97 + 10
  else if 65 ≤ c && c ≤ 70 then c - 65 + 10
  else 0

/-- Go's `strconv.Quote` on a byte string, as used in error messages. Exact
on ASCII; other bytes are written `\xNN`. -/
def quoteBytes (bs : List Nat) : String :=
  let one (b : Nat) : List Char :=
    if b == 34 then ['\\', '"']
    else if b == 92 then ['\\', '\\']
    else if b == 7 then ['\\', 'a']
    else if b == 8 then ['\\', 'b']
    else if b == 12 then ['\\', 'f']
    else if b == 10 then ['\\', 'n']
    else if b == 13 then ['\\', 'r']
    else if b == 9 then ['\\', 't']
    else if b == 11 then ['\\', 'v']
    else if 32 ≤ b && b < 127 then [Char.ofNat b]
    else ['\\', 'x', (upperhex (b / 16)).toLower, (upperhex (b % 16)).toLower]
  String.mk (['"'] ++ bs.flatMap one ++ ['"'])

/-- The checking pass of `unescape`: the first malformed escape or forbidden
host byte is an error. -/
def unescapeCheck (mode : Encoding) : List Nat → Except String Unit
  | [] => .ok ()
  | 37 :: rest =>
    match rest with
    | h1 :: h2 :: rest2 =>
      if !ishex h1 || !ishex h2 then
        .error ("invalid URL escape " ++ quoteBytes ((37 :: rest).take 3))
      else if mode == encodeHost && unhex h1 < 8 && [37, h1, h2] != [37, 50, 53] then
        .error ("invalid URL escape " ++ quoteBytes [37, h1, h2])
      else if mode == encodeZone && [37, h1, h2] != [37, 50, 53] && unhex h1 * 16 + unhex h2 != 32
          && shouldEscape (unhex h1 * 16 + unhex h2) encodeHost then
        .error ("invalid URL escape " ++ quoteBytes [37, h1, h2])
      else unescapeCheck mode rest2
    | _ => .error ("invalid URL escape " ++ quoteBytes ((37 :: rest).take 3))
  | c :: rest =>
    if (mode == encodeHost || mode == encodeZone) && c < 0x80 && shouldEscape c encodeHost then
      .error ("invalid character " ++ quoteBytes [c] ++ " in host name")
    else unescapeCheck mode rest

/-- The decoding pass of `unescape`. -/
def unescapeBytes (mode : Encoding) : List Nat → List Nat
  | [] => []
  | 37 :: h1 :: h2 :: rest => (unhex h1 * 16 + unhex h2) :: unescapeBytes mode rest
  | c :: rest =>
    (if c == 43 && mode == encodeQueryComponent then 32 else c) :: unescapeBytes mode rest

/-- The function `unescape` of net/url, on bytes. -/
def unescape (s : List Nat) (mode : Encoding) : Except String (List Nat) :=
  match unescapeCheck mode s with
  | .error e => .error e
  | .ok _ => .ok (unescapeBytes mode s)

/-- The function `unescape` on text. A result that is not valid UTF-8 is not
text and is reported as an error here (Go returns those bytes). -/
def unescapeText (s : List Char) (mode : Encoding) : Except String (List Char) :=
  match unescape (utf8Bytes s) mode with
  | .error e => .error e
  | .ok bs =>
    match utf8Decode bs with
    | some cs => .ok cs
    | none => .error "escape decodes to bytes that are not UTF-8 text"

/-- The escaped form `raw` is well formed and stands for the text `s`
(`unescape` succeeds and returns `s`). -/
def unescapesTo (raw s : List Char) (mode : Encoding) : Bool :=
  match unescape (utf8Bytes raw) mode with
  | .ok bs => bs == utf8Bytes s
  | .error _ => false

/-- The function `validEncoded` of net/url. -/
def validEncoded (s : List Char) (mode : Encoding) : Bool :=
  (utf8Bytes s).all (fun b => byteIn b "!$&'()*+,;=:@[]%" || !shouldEscape b mode)

/-- The type `url.Userinfo`. -/
structure Userinfo where
  username : String
  password : String
  passwordSet : Bool
deriving DecidableEq, Repr

/-- The method `Userinfo.String`. -/
def Userinfo.string (u : Userinfo) : List Char :=
  escape u.username.toList encodeUserPassword ++
    (if u.passwordSet then ':' :: escape u.password.toList encodeUserPassword else [])

/-- The type `url.URL`. -/
structure URL where
  Scheme : String
  Opaque : String
  User : Option Userinfo
  Host : String
  Path : String
  RawPath : String
  OmitHost : Bool
  ForceQuery : Bool
  RawQuery : String
  Fragment : String
  RawFragment : String
deriving DecidableEq, Repr

/-- The zero value of `URL`. -/
def URL.zero : URL :=
  { Scheme := "", Opaque := "", User := none, Host := "", Path := "", RawPath := "",
    OmitHost := false, ForceQuery := false, RawQuery := "", Fragment := "", RawFragment := "" }

/-- The method `URL.EscapedPath`. -/
def URL.EscapedPath (u : URL) : List Char :=
  if u.RawPath != "" && validEncoded u.RawPath.toList encodePath
      && unescapesTo u.RawPath.toList u.Path.toList encodePath then
    u.RawPath.toList
  else if u.Path == "*" then ['*']
  else escape u.Path.toList encodePath

/-- The method `URL.EscapedFragment`. -/
def URL.EscapedFragment (u : URL) : List Char :=
  if u.RawFragment != "" && validEncoded u.RawFragment.toList encodeFragment
      && unescapesTo u.RawFragment.toList u.Fragment.toList encodeFragment then
    u.RawFragment.toList
  else escape u.Fragment.toList encodeFragment

/-- The scheme and authority that `URL.String` writes before the path of a
URL that is not opaque. -/
def URL.beforePath (u : URL) : List Char :=
  (if u.Scheme != "" then u.Scheme.toList ++ [':'] else []) ++
  (if u.Scheme != "" || u.Host != "" || u.User.isSome then
    if u.OmitHost && u.Host == "" && u.User.isNone then []
    else
      (if u.Host != "" || u.Path != "" || u.User.isSome then ['/', '/'] else []) ++
      (match u.User with
       | some ui => ui.string ++ ['@']
       | none => []) ++
      (if u.Host != "" then escape u.Host.toList encodeHost else [])
   else [])

/-- The query and fragment that `URL.String` writes after the path. -/
def URL.afterPath (u : URL) : List Char :=
  (if u.ForceQuery || u.RawQuery != "" then '?' :: u.RawQuery.toList else []) ++
  (if u.Fragment != "" then '#' :: u.EscapedFragment else [])

/-- The path as `URL.String` writes it: a slash is put before a path that
does not start with one when there is a host, and `./` before a first
segment holding a colon when nothing precedes it. -/
def URL.pathPart (u : URL) : List Char :=
  let path := u.EscapedPath
  (if path != [] && path.head? != some '/' && u.Host != "" then ['/'] else []) ++
  (if u.beforePath == [] && (path.takeWhile (· != '/')).contains ':' then ['.', '/'] else []) ++
  path

/-- The method `URL.String`. -/
def URL.string (u : URL) : String :=
  if u.Opaque != "" then
    String.mk ((if u.Scheme != "" then u.Scheme.toList ++ [':'] else []) ++ u.Opaque.toList
      ++ u.afterPath)
  else
    String.mk (u.beforePath ++ u.pathPart ++ u.afterPath)


/-- Go's `strconv.Quote` on text, as used in error messages. Exact on ASCII;
other characters are kept as they are. -/
def quoteText (cs : List Char) : String :=
  String.mk (['"'] ++ cs.flatMap (fun c =>
    if c.toNat < 128 then ((quoteBytes [c.toNat]).toList.drop 1).dropLast else [c]) ++ ['"'])

/-- The call `strings.Cut(s, sep)` for a one-character separator. -/
def cutAt (sep : Char) (s : List Char) : List Char × List Char × Bool :=
  match s.span (· != sep) with
  | (a, _ :: b) => (a, b, true)
  | (a, []) => (a, [], false)

/-- The call `strings.LastIndex(s, sep)` for a one-character separator. -/
def lastIndexOf (sep : Char) (s : List Char) : Option Nat :=
  match s.reverse.indexOf? sep with
  | some j => some (s.length - 1 - j)
  | none => none

/-- The call `strings.Index(s, pat)`, counting from `i`. -/
def indexOfSub (pat : List Char) : List Char → Nat → Option Nat
  | [], i => if pat == [] then some i else none
  | c :: cs, i => if pat.isPrefixOf (c :: cs) then some i else indexOfSub pat cs (i + 1)

/-- The loop of `getScheme`: `i` is the position of the next character. -/
def getSchemeLoop (rawURL : List Char) : Nat → List Char → Except String (List Char × List Char)
  | _, [] => .ok ([], rawURL)
  | i, c :: rest =>
    if c.isAlpha then getSchemeLoop rawURL (i + 1) rest
    else if c.isDigit || c == '+' || c == '-' || c == '.' then
      if i == 0 then .ok ([], rawURL) else getSchemeLoop rawURL (i + 1) rest
    else if c == ':' then
      if i == 0 then .error "missing protocol scheme" else .ok (rawURL.take i, rest)
    else .ok ([], rawURL)

/-- The function `getScheme` of net/url: the scheme and what follows it. -/
def getScheme (rawURL : List Char) : Except String (List Char × List Char) :=
  getSchemeLoop rawURL 0 rawURL

/-- The function `validOptionalPort` of net/url. -/
def validOptionalPort (port : List Char) : Bool :=
  match port with
  | [] => true
  | c :: ds => c == ':' && ds.all Char.isDigit

/-- The function `validUserinfo` of net/url. -/
def validUserinfo (s : List Char) : Bool :=
  s.all (fun r => r.isAlphanum || "-._:~!$&'()*+,;=%@".toList.contains r)

/-- The function `parseHost` of net/url. The text between brackets is not
checked to be an IP literal (recent Go releases refuse one that is not). -/
def parseHost (host : List Char) : Except String (List Char) :=
  if host.head? == some '[' then
    match lastIndexOf ']' host with
    | none => .error "missing ']' in host"
    | some i =>
      let colonPort := host.drop (i + 1)
      if !validOptionalPort colonPort then
        .error ("invalid port " ++ quoteText colonPort ++ " after host")
      else
        match indexOfSub ['%', '2', '5'] (host.take i) 0 with
        | some zone =>
          match unescapeText (host.take zone) encodeHost with
          | .error e => .error e
          | .ok host1 =>
            match unescapeText ((host.take i).drop zone) encodeZone with
            | .error e => .error e
            | .ok host2 =>
              match unescapeText (host.drop i) encodeHost with
              | .error e => .error e
              | .ok host3 => .ok (host1 ++ host2 ++ host3)
        | none => unescapeText host encodeHost
  else
    match lastIndexOf ':' host with
    | some i =>
      if !validOptionalPort (host.drop i) then
        .error ("invalid port " ++ quoteText (host.drop i) ++ " after host")
      else unescapeText host encodeHost
    | none => unescapeText host encodeHost

/-- The function `parseAuthority` of net/url. -/
def parseAuthority (authority : List Char) : Except String (Option Userinfo × List Char) :=
  match lastIndexOf '@' authority with
  | none =>
    match parseHost authority with
    | .error e => .error e
    | .ok host => .ok (none, host)
  | some i =>
    match parseHost (authority.drop (i + 1)) with
    | .error e => .error e
    | .ok host =>
      let userinfo := authority.take i
      if !validUserinfo userinfo then .error "net/url: invalid userinfo"
      else if !userinfo.contains ':' then
        match unescapeText userinfo encodeUserPassword with
        | .error e => .error e
        | .ok name => .ok (some ⟨String.mk name, "", false⟩, host)
      else
        let c := cutAt ':' userinfo
        match unescapeText c.1 encodeUserPassword with
        | .error e => .error e
        | .ok name =>
          match unescapeText c.2.1 encodeUserPassword with
          | .error e => .error e
          | .ok pass => .ok (some ⟨String.mk name, String.mk pass, true⟩, host)

/-- The method `URL.setPath`. -/
def URL.setPath (u : URL) (p : List Char) : Except String URL :=
  match unescapeText p encodePath with
  | .error e => .error e
  | .ok path =>
    .ok { u with Path := String.mk path,
                 RawPath := if escape path encodePath == p then "" else String.mk p }

/-- The method `URL.setFragment`. -/
def URL.setFragment (u : URL) (f : List Char) : Except String URL :=
  match unescapeText f encodeFragment with
  | .error e => .error e
  | .ok frag =>
    .ok { u with Fragment := String.mk frag,
                 RawFragment := if escape frag encodeFragment == f then "" else String.mk f }

/-- The function `parse` of net/url (the address without its fragment). -/
def parse (rawURL : List Char) (viaRequest : Bool) : Except String URL :=
  if rawURL.any (fun c => c.toNat < 32 || c.toNat == 127) then
    .error "net/url: invalid control character in URL"
  else if rawURL == [] && viaRequest then .error "empty url"
  else if rawURL == ['*'] then .ok { URL.zero with Path := "*" }
  else
    match getScheme rawURL with
    | .error e => .error e
    | .ok (scheme0, rest0) =>
      let scheme := scheme0.map Char.toLower
      let force := rest0.getLast? == some '?' && rest0.count '?' == 1
      let rest := if force then rest0.dropLast else (cutAt '?' rest0).1
      let query := if force then [] else (cutAt '?' rest0).2.1
      let url : URL :=
        { URL.zero with Scheme := String.mk scheme, ForceQuery := force, RawQuery := String.mk query }
      let rooted := rest.head? == some '/'
      if !rooted && scheme != [] then .ok { url with Opaque := String.mk rest }
      else if !rooted && viaRequest then .error "invalid URI for request"
      else if !rooted && (rest.takeWhile (· != '/')).contains ':' then
        .error "first path segment in URL cannot contain colon"
      else if (scheme != [] || (!viaRequest && !(['/', '/', '/'].isPrefixOf rest)))
          && ['/', '/'].isPrefixOf rest then
        let a := rest.drop 2
        match parseAuthority (a.takeWhile (· != '/')) with
        | .error e => .error e
        | .ok (user, host) =>
          URL.setPath { url with User := user, Host := String.mk host } (a.dropWhile (· != '/'))
      else if scheme != [] && rooted then URL.setPath { url with OmitHost := true } rest
      else URL.setPath url rest

/-- The function `url.Parse`. -/
def Parse (rawURL : String) : Except String URL :=
  let c := cutAt '#' rawURL.toList
  match parse c.1 false with
  | .error e => .error ("parse " ++ quoteText c.1 ++ ": " ++ e)
  | .ok url =>
    if c.2.1 == [] then .ok url
    else
      match URL.setFragment url c.2.1 with
      | .error e => .error ("parse " ++ quoteText rawURL.toList ++ ": " ++ e)
      | .ok u => .ok u

/-! ## The server and its world -/

/-- One outbound `http.Post(url, contentType, body)` call. -/
structure Post where
  url : String
  contentType : String
  body : String
deriving DecidableEq, Repr

/-- An `http.Response`, of which `Join` reads the status code. -/
structure Response where
  StatusCode : Nat
deriving DecidableEq, Repr

/-- Everything outside the `Server` record that the code reads or changes:
the channels by identity, the state of the decision component, the
states it has been asked about, the lines given to `log.Println`, and the
outbound calls made. -/
structure World (σ RobotState : Type) where
  chans : Nat → Chan
  ai : σ
  thinkCalls : List RobotState
  log : List String
  posts : List Post

/-- The record `Server`. The field `ai` is the method `Think` of the decision
component (acting on that component's state `σ`); `done` is the identity
of the shutdown channel. -/
structure Server (σ RobotState Commands : Type) where
  ai : σ → RobotState → Commands × σ
  remoteRoot : String
  localRoot : String
  done : Nat

/-- The constructor `NewServer`. -/
def NewServer {σ RobotState Commands : Type} (ai : σ → RobotState → Commands × σ)
    (remoteRoot localRoot : String) (done : Nat) : Server σ RobotState Commands :=
  { ai := ai, remoteRoot := remoteRoot, localRoot := localRoot, done := done }

/-- How a handler call ends: it returns its `error`, or it never returns
because it is parked in a channel send, or it panics. -/
inductive Outcome where
  | returned (err : Option String)
  | blocked
  | panicked (msg : String)
deriving DecidableEq, Repr

/-- The receiver, the response writer and the world after a handler call,
and how the call ended. -/
structure HandlerResult (σ RobotState Commands : Type) where
  s : Server σ RobotState Commands
  w : ResponseWriter
  world : World σ RobotState
  out : Outcome

/-- The type `HttpApiFunc` of the server's handlers, with the receiver and
the world made explicit. -/
abbrev HttpApiFunc (σ RobotState Commands : Type) :=
  Server σ RobotState Commands → ResponseWriter → Request → List (String × String) →
    World σ RobotState → HandlerResult σ RobotState Commands

/-- The type `http.HandlerFunc`, with the receiver and the world made explicit. -/
abbrev HandlerFunc (σ RobotState Commands : Type) :=
  Server σ RobotState Commands → ResponseWriter → Request →
    World σ RobotState → HandlerResult σ RobotState Commands

section Handlers

variable {σ RobotState Commands : Type}

/-- The function `writeCorsHeaders`. -/
def writeCorsHeaders (w : ResponseWriter) (_r : Request) : ResponseWriter :=
  let w1 := { w with handlerHeader := w.handlerHeader.Add "Access-Control-Allow-Origin" "*" }
  let w2 := { w1 with handlerHeader :=
    w1.handlerHeader.Add "Access-Control-Allow-Headers" "Origin, X-Requested-With, Content-Type, Accept" }
  { w2 with handlerHeader :=
    w2.handlerHeader.Add "Access-Control-Allow-Methods" "GET, POST, DELETE, PUT, OPTIONS" }

/-- The function `writeJSON`: the content type and the status go out before
`json.Marshal` runs; whatever `Marshal` returned (nothing, when it fails) is
written, and its error is returned. -/
def writeJSON {α : Type} (marshal : α → Except String String) (w : ResponseWriter) (code : Nat)
    (thing : α) : ResponseWriter × Option String :=
  let w1 := { w with handlerHeader := w.handlerHeader.Set "Content-Type" "application/json" }
  let w2 := w1.WriteHeader code
  match marshal thing with
  | .ok val => (w2.Write val, none)
  | .error err => (w2.Write "", some err)

/-- The function `httpError`. -/
def httpError (w : ResponseWriter) (err : Option String) : ResponseWriter :=
  let statusCode := StatusInternalServerError
  match err with
  | some e => httpErrorReply w e statusCode
  | none => w

/-- The function `makeHttpHandler`: CORS headers first, then the handler,
then `httpError` when the handler returned an error. -/
def makeHttpHandler (_localMethod _localRoute : String)
    (handlerFunc : HttpApiFunc σ RobotState Commands) : HandlerFunc σ RobotState Commands :=
  fun s w r world =>
    let w1 := writeCorsHeaders w r
    let res := handlerFunc s w1 r [] world
    match res.out with
    | .returned (some err) => { res with w := httpError res.w (some err), out := .returned none }
    | _ => res

/-- The method `Server.status`. -/
def Server.status : HttpApiFunc σ RobotState Commands :=
  fun s w _r _vars world =>
    { s := s, w := w.WriteHeader StatusOK, world := world, out := .returned none }

/-- The method `Server.start`. -/
def Server.start : HttpApiFunc σ RobotState Commands :=
  fun s w _r _vars world =>
    { s := s, w := w.WriteHeader StatusOK, world := world, out := .returned none }

/-- The method `Server.end`: status 200, then `s.done <- true`. -/
def Server.end' : HttpApiFunc σ RobotState Commands :=
  fun s w _r _vars world =>
    let w1 := w.WriteHeader StatusOK
    match (world.chans s.done).send true with
    | .ok c =>
      { s := s, w := w1, world := { world with chans := fun i => if i = s.done then c else world.chans i },
        out := .returned none }
    | .blocks => { s := s, w := w1, world := world, out := .blocked }
    | .panics msg => { s := s, w := w1, world := world, out := .panicked msg }

/-- The method `Server.think`, over the decoder of `RobotState` and the
`json.Marshal` of the decision component's result. -/
def Server.think (decode : String → Except String RobotState)
    (marshal : Commands → Except String String) : HttpApiFunc σ RobotState Commands :=
  fun s w r _vars world =>
    match decode r.Body with
    | .error err =>
      { s := s, w := w, world := { world with log := world.log ++ [err] },
        out := .returned (some err) }
    | .ok state =>
      let res := s.ai world.ai state
      let world1 := { world with ai := res.2, thinkCalls := world.thinkCalls ++ [state] }
      let wj := writeJSON marshal w StatusOK res.1
      match wj.2 with
      | some err =>
        { s := s, w := wj.1, world := { world1 with log := world1.log ++ [err] },
          out := .returned none }
      | none => { s := s, w := wj.1, world := world1, out := .returned none }

/-- One entry of the router: method, path, wrapped handler. -/
structure Route (σ RobotState Commands : Type) where
  method : String
  path : String
  handler : HandlerFunc σ RobotState Commands

/-- The method `Server.CreateRouter`: the route table, each handler wrapped by
`makeHttpHandler`. -/
def Server.CreateRouter (decode : String → Except String RobotState)
    (marshal : Commands → Except String String) : List (Route σ RobotState Commands) :=
  [ ⟨"GET", "/status", makeHttpHandler "GET" "/status" Server.status⟩,
    ⟨"POST", "/status", makeHttpHandler "POST" "/status" Server.status⟩,
    ⟨"POST", "/think", makeHttpHandler "POST" "/think" (Server.think decode marshal)⟩,
    ⟨"POST", "/end", makeHttpHandler "POST" "/end" Server.end'⟩,
    ⟨"POST", "/start", makeHttpHandler "POST" "/start" Server.start⟩ ]

/-- The route the router picks for a request: the entry with the request's
path and method. -/
def matchRoute (routes : List (Route σ RobotState Commands)) (r : Request) :
    Option (Route σ RobotState Commands) :=
  routes.find? (fun e => e.path == r.Path && e.method == r.Method)

/-- The router serving one request on a new response writer. A request that
matches no route is answered by the router library itself (`none` here). -/
def serveHTTP (routes : List (Route σ RobotState Commands)) (s : Server σ RobotState Commands)
    (world : World σ RobotState) (r : Request) : Option (HandlerResult σ RobotState Commands) :=
  match matchRoute routes r with
  | none => none
  | some e =>
    let res := e.handler s ResponseWriter.new r world
    match res.out with
    | .returned _ => some { res with w := res.w.finishRequest }
    | _ => some res

/-- The router serving requests one after the other: each request starts from
the receiver and the world the previous one left. -/
def serveAll (routes : List (Route σ RobotState Commands)) :
    Server σ RobotState Commands → World σ RobotState → List Request →
      List (Option (HandlerResult σ RobotState Commands))
  | _, _, [] => []
  | s, world, r :: rs =>
    match serveHTTP routes s world r with
    | none => none :: serveAll routes s world rs
    | some res => some res :: serveAll routes res.s res.world rs

end Handlers

/-! ## encoding/json: the body of the join request -/

/-- Lower-case hexadecimal digit of a value below 16. -/
def lowerhex (n : Nat) : Char :=
  "0123456789abcdef".toList.getD n '0'

/-- The table `htmlSafeSet` of encoding/json: the ASCII characters written as
they are, that is all from the space on except the double quote, the
backslash and the three HTML characters. -/
def htmlSafe (c : Char) : Bool :=
  32 ≤ c.toNat && c.toNat < 128 && c != '"' && c != '\\' && c != '&' && c != '<' && c != '>'

/-- What `appendString` of encoding/json (HTML escaping on, as in
`json.Marshal`) writes for one character. -/
def appendStringChar (c : Char) : List Char :=
  if c.toNat < 128 then
    if htmlSafe c then [c]
    else if c == '\\' || c == '"' then ['\\', c]
    else if c.toNat == 8 then ['\\', 'b']
    else if c.toNat == 12 then ['\\', 'f']
    else if c.toNat == 10 then ['\\', 'n']
    else if c.toNat == 13 then ['\\', 'r']
    else if c.toNat == 9 then ['\\', 't']
    else ['\\', 'u', '0', '0', lowerhex (c.toNat / 16), lowerhex (c.toNat % 16)]
  else if c.toNat == 0x2028 then ['\\', 'u', '2', '0', '2', '8']
  else if c.toNat == 0x2029 then ['\\', 'u', '2', '0', '2', '9']
  else [c]

/-- The JSON string literal `json.Marshal` writes for a string. -/
def appendString (src : String) : List Char :=
  ['"'] ++ src.toList.flatMap appendStringChar ++ ['"']

/-- The type `joinMatchRequestMessage`. -/
structure joinMatchRequestMessage where
  Endpoint : String
  Match : String
deriving DecidableEq, Repr

/-- The call `json.Marshal(j)` on a `joinMatchRequestMessage`: an object with
the fields in declaration order under their `json` tags. It cannot fail. -/
def marshalJoin (j : joinMatchRequestMessage) : String :=
  String.mk ("\x7b\"endpoint\":".toList ++ appendString j.Endpoint ++ ",\"match\":".toList
    ++ appendString j.Match ++ "\x7d".toList)

/-! ### Reading a JSON object back (the spec's side of the join body) -/

/-- Value of a hexadecimal digit. -/
def hexVal (c : Char) : Option Nat :=
  if 48 ≤ c.toNat ∧ c.toNat ≤ 57 then some (c.toNat - 48)
  else if 97 ≤ c.toNat ∧ c.toNat ≤ 102 then some (c.toNat - 87)
  else if 65 ≤ c.toNat ∧ c.toNat ≤ 70 then some (c.toNat - 55)
  else none

/-- The character a two-character JSON escape stands for (RFC 8259). -/
def simpleEscape (e : Char) : Option Char :=
  if e = '"' then some '"'
  else if e = '\\' then some '\\'
  else if e = '/' then some '/'
  else if e = 'b' then some (Char.ofNat 8)
  else if e = 'f' then some (Char.ofNat 12)
  else if e = 'n' then some (Char.ofNat 10)
  else if e = 'r' then some (Char.ofNat 13)
  else if e = 't' then some (Char.ofNat 9)
  else none

/-- The character of a `\uXXXX` escape; the halves of a surrogate pair are
not read. -/
def unicodeEscape (a b c d : Char) : Option Char :=
  match hexVal a, hexVal b, hexVal c, hexVal d with
  | some x, some y, some z, some t =>
    let n := ((x * 16 + y) * 16 + z) * 16 + t
    if 0xD800 ≤ n ∧ n < 0xE000 then none else some (Char.ofNat n)
  | _, _, _, _ => none

/-- Spec side: reads the characters of a JSON string (RFC 8259) up to its
closing quote; gives the text read and what follows the quote. -/
def readStringBody : List Char → Option (List Char × List Char)
  | [] => none
  | c :: rest =>
    if c = '"' then some ([], rest)
    else if c = '\\' then
      match rest with
      | [] => none
      | e :: rest1 =>
        if e = 'u' then
          match rest1 with
          | a :: b :: c2 :: d :: rest2 =>
            match unicodeEscape a b c2 d with
            | some ch => (readStringBody rest2).map (fun p => (ch :: p.1, p.2))
            | none => none
          | _ => none
        else
          match simpleEscape e with
          | some ch => (readStringBody rest1).map (fun p => (ch :: p.1, p.2))
          | none => none
    else if c.toNat < 32 then none
    else (readStringBody rest).map (fun p => (c :: p.1, p.2))

/-- Spec side: reads one JSON string literal from the front of the input. -/
def readString : List Char → Option (String × List Char)
  | '"' :: rest => (readStringBody rest).map (fun p => (String.mk p.1, p.2))
  | _ => none

/-- Spec side: reads the members `"key":"value"` of a JSON object, separated
by commas, up to the closing brace (`fuel` bounds the number of members). -/
def readMembers : Nat → List Char → Option (List (String × String))
  | 0, _ => none
  | fuel + 1, cs =>
    match readString cs with
    | some (k, ':' :: r1) =>
      match readString r1 with
      | some (v, ',' :: r2) => (readMembers fuel r2).map (fun ms => (k, v) :: ms)
      | some (v, ['}']) => some [(k, v)]
      | _ => none
    | _ => none

/-- Spec side: the JSON object a compact text denotes, as the list of its
members in order, for objects whose values are strings. -/
def readObject (s : String) : Option (List (String × String)) :=
  match s.toList with
  | ['{', '}'] => some []
  | '{' :: cs => readMembers cs.length cs
  | _ => none

/-- The character is written as it is inside a JSON string by `json.Marshal`:
it is not a control character, a double quote, a backslash, one of `<`, `>`,
`&`, or one of the separators U+2028 and U+2029. -/
def jsonPlain (c : Char) : Bool :=
  htmlSafe c || (128 ≤ c.toNat && c.toNat != 0x2028 && c.toNat != 0x2029)

/-! ## Join -/

/-- The error returned by `Join`, the receiver and the world after the call. -/
structure JoinResult (σ RobotState Commands : Type) where
  err : Option String
  s : Server σ RobotState Commands
  world : World σ RobotState

/-- The method `Server.Join`, over the address parser `url.Parse` and the
network call `http.Post`. -/
def Server.Join {σ RobotState Commands : Type} (urlParse : String → Except String URL)
    (httpPost : Post → Except String Response) (s : Server σ RobotState Commands)
    (matchID : String) (world : World σ RobotState) : JoinResult σ RobotState Commands :=
  let j : joinMatchRequestMessage := { Endpoint := s.localRoot, Match := matchID }
  match urlParse s.remoteRoot with
  | .error err => { err := some err, s := s, world := world }
  | .ok u0 =>
    let u := { u0 with Path := "join" }
    let world1 := { world with log := world.log ++ ["Making request to  " ++ u.string] }
    let js := marshalJoin j
    let call : Post := { url := u.string, contentType := "application/json", body := js }
    let world2 := { world1 with posts := world1.posts ++ [call] }
    match httpPost call with
    | .error err => { err := some err, s := s, world := world2 }
    | .ok r =>
      if r.StatusCode != StatusOK then
        { err := some ("expected HTTP 200 - OK, got " ++ toString r.StatusCode), s := s,
          world := world2 }
      else { err := none, s := s, world := { world2 with log := world2.log ++ ["OK"] } }


/-! ## Serving a sequence of requests -/

section Serving

variable {σ RobotState Commands : Type}

/-- The receiver and the world after the router has served the requests one
after the other. -/
def serveState (routes : List (Route σ RobotState Commands)) :
    Server σ RobotState Commands → World σ RobotState → List Request →
      Server σ RobotState Commands × World σ RobotState
  | s, world, [] => (s, world)
  | s, world, r :: rs =>
    match serveHTTP routes s world r with
    | none => serveState routes s world rs
    | some res => serveState routes res.s res.world rs

/-- The request was answered: its handler returned and the response went out
with the given status. -/
def answeredWith (code : Nat) (res : Option (HandlerResult σ RobotState Commands)) : Prop :=
  ∃ x, res = some x ∧ x.out = Outcome.returned none ∧ x.w.wroteHeader = true ∧ x.w.status = code

/-- The response headers hold the three cross-origin entries that
`writeCorsHeaders` adds. -/
def carriesCors (h : Header) : Prop :=
  "*" ∈ h.Values "Access-Control-Allow-Origin" ∧
  "Origin, X-Requested-With, Content-Type, Accept" ∈ h.Values "Access-Control-Allow-Headers" ∧
  "GET, POST, DELETE, PUT, OPTIONS" ∈ h.Values "Access-Control-Allow-Methods"

/-- A handler keeps the cross-origin entries: entered with them in
`w.Header()` and the header not yet written, it leaves them there and, if
it writes the header, sends them. -/
def keepsCors (h : HttpApiFunc σ RobotState Commands) : Prop :=
  ∀ s w r vars world, carriesCors w.handlerHeader → w.wroteHeader = false →
    carriesCors (h s w r vars world).w.handlerHeader ∧
    ((h s w r vars world).w.wroteHeader = true → carriesCors (h s w r vars world).w.sentHeader)

end Serving

/-! ## A sample agent, for concrete runs -/

/-- A sample decoder: the request body is a JSON boolean. -/
def sampleDecode (body : String) : Except String Bool :=
  if body = "true" then Except.ok true
  else if body = "false" then Except.ok false
  else Except.error "json: cannot unmarshal into Go value of type cylon.RobotState"

/-- A sample decision component: it counts its calls and answers a known
state with a command, an unknown one with a value JSON cannot express. -/
def sampleThink (calls : Nat) (state : Bool) : Option Bool × Nat :=
  (if state then some true else none, calls + 1)

/-- A sample `json.Marshal` for the sample commands. -/
def sampleMarshal : Option Bool → Except String String
  | some true => Except.ok "true"
  | some false => Except.ok "false"
  | none => Except.error "json: unsupported value: NaN"

/-- A sample decoder of the sample commands, the inverse of `sampleMarshal`. -/
def sampleUnmarshal (text : String) : Except String (Option Bool) :=
  if text = "true" then Except.ok (some true)
  else if text = "false" then Except.ok (some false)
  else Except.error "json: cannot unmarshal into Go value of type cylon.Commands"

/-- A sample server: coordinator `http://coord:8000`, agent
`http://agent:9000`, shutdown channel number 0. -/
def sampleServer : Server Nat Bool (Option Bool) :=
  NewServer sampleThink "http://coord:8000" "http://agent:9000" 0

/-- A sample world: the shutdown channel is `make(chan bool)` with the main
goroutine waiting in `<-done`; nothing has happened yet. -/
def sampleWorld : World Nat Bool :=
  { chans := fun _ => Chan.make 0 1, ai := 0, thinkCalls := [], log := [], posts := [] }

/-! ## Properties -/

section Properties

variable {σ RobotState Commands : Type}

/-- C7. `Status` and `Start` answer 200 and return no error whatever the
receiver, the world and the request are, hence after any prior history of
requests; they change neither the receiver nor the world (no send on the
shutdown channel, no log line, no call of the decision component). This
holds for the bare handlers and for the routes of `CreateRouter`,
including after an arbitrary history `hist` that may contain `End`. -/
theorem status_start_no_effect (decode : String → Except String RobotState)
    (marshal : Commands → Except String String) (s : Server σ RobotState Commands)
    (world : World σ RobotState) (r : Request) (vars : List (String × String))
    (hist : List Request) (body : String) :
    (Server.status s ResponseWriter.new r vars world).out = Outcome.returned none ∧
    (Server.status s ResponseWriter.new r vars world).w.status = 200 ∧
    (Server.status s ResponseWriter.new r vars world).s = s ∧
    (Server.status s ResponseWriter.new r vars world).world = world ∧
    (Server.start s ResponseWriter.new r vars world).out = Outcome.returned none ∧
    (Server.start s ResponseWriter.new r vars world).w.status = 200 ∧
    (Server.start s ResponseWriter.new r vars world).s = s ∧
    (Server.start s ResponseWriter.new r vars world).world = world ∧
    (∀ q ∈ [Request.mk "GET" "/status" body, Request.mk "POST" "/status" body,
            Request.mk "POST" "/start" body],
      let st := serveState (Server.CreateRouter decode marshal) s world hist
      ∃ res, serveHTTP (Server.CreateRouter decode marshal) st.1 st.2 q = some res ∧
        res.out = Outcome.returned none ∧ res.w.status = 200 ∧ res.s = st.1 ∧
        res.world = st.2 ∧ (res.world.chans res.s.done).sent = (st.2.chans st.1.done).sent) := by
  refine ⟨rfl, rfl, rfl, rfl, rfl, rfl, rfl, rfl, ?_⟩
  intro q hq
  simp only [List.mem_cons, List.mem_singleton, List.mem_nil_iff, or_false] at hq
  rcases hq with rfl | rfl | rfl
  · exact ⟨_, rfl, rfl, rfl, rfl, rfl, rfl⟩
  · exact ⟨_, rfl, rfl, rfl, rfl, rfl, rfl⟩
  · exact ⟨_, rfl, rfl, rfl, rfl, rfl, rfl⟩

/-- C5, as the claim states it, fails: the sample agent asked about `false`
receives a body that decodes, its decision component answers with a result
that `json.Marshal` refuses, and the response has status 200 and an empty
body, which is the serialization of nothing. -/
theorem think_body_not_serialization :
    sampleDecode "false" = Except.ok false ∧
    (∀ js, sampleMarshal (sampleServer.ai sampleWorld.ai false).1 ≠ Except.ok js) ∧
    (∀ c, sampleMarshal c ≠ Except.ok "") ∧
    ∃ res, serveHTTP (Server.CreateRouter sampleDecode sampleMarshal) sampleServer sampleWorld
        (Request.mk "POST" "/think" "false") = some res ∧
      res.w.status = 200 ∧ res.w.body = "" := by
  refine ⟨by decide, ?_, ?_, _, rfl, rfl, rfl⟩
  · intro js h
    have h' : sampleMarshal none = Except.ok js := h
    simp [sampleMarshal] at h'
  · intro c h
    rcases c with _ | b
    · simp [sampleMarshal] at h
    · cases b
      · have h' : (Except.ok "false" : Except String String) = Except.ok "" := h
        exact absurd (Except.ok.inj h') (by decide)
      · have h' : (Except.ok "true" : Except String String) = Except.ok "" := h
        exact absurd (Except.ok.inj h') (by decide)

/-- C5, amended. A think request whose body decodes to `state`: the
decision component is invoked exactly once, on `state` (one more recorded
call, its state advanced by that one call), the handler returns no error,
and the response has status 200 and content type `application/json`. When
the commands the decision component returned serialize to `js`, the body is
`js` and nothing is logged, so decoding the body is decoding that
serialization; when they do not serialize, the body is empty. -/
theorem think_decoded (decode : String → Except String RobotState)
    (marshal : Commands → Except String String) (s : Server σ RobotState Commands)
    (world : World σ RobotState) (body : String) (state : RobotState)
    (hdec : decode body = Except.ok state) :
    ∃ res, serveHTTP (Server.CreateRouter decode marshal) s world (Request.mk "POST" "/think" body)
        = some res ∧
      res.out = Outcome.returned none ∧
      res.w.status = 200 ∧
      res.w.sentHeader.Get "Content-Type" = "application/json" ∧
      res.world.thinkCalls = world.thinkCalls ++ [state] ∧
      res.world.ai = (s.ai world.ai state).2 ∧
      (∀ js, marshal (s.ai world.ai state).1 = Except.ok js →
        res.w.body = js ∧ res.world.log = world.log ∧
        ∀ unmarshal : String → Except String Commands, unmarshal res.w.body = unmarshal js) ∧
      (∀ e, marshal (s.ai world.ai state).1 = Except.error e → res.w.body = "") := by
  have hroute : matchRoute (@Server.CreateRouter σ RobotState Commands decode marshal)
      (Request.mk "POST" "/think" body) =
      some ⟨"POST", "/think", makeHttpHandler "POST" "/think" (Server.think decode marshal)⟩ := rfl
  cases hm : marshal (s.ai world.ai state).1 with
  | ok js0 =>
    simp only [serveHTTP, hroute, makeHttpHandler, Server.think, hdec, writeJSON, hm]
    refine ⟨_, rfl, rfl, rfl, rfl, rfl, rfl, ?_, ?_⟩
    · intro js hjs
      have hjs' : js0 = js := Except.ok.inj hjs
      subst hjs'
      have hb : (ResponseWriter.finishRequest
          (ResponseWriter.Write (ResponseWriter.WriteHeader
            { writeCorsHeaders ResponseWriter.new (Request.mk "POST" "/think" body) with
              handlerHeader := (writeCorsHeaders ResponseWriter.new
                (Request.mk "POST" "/think" body)).handlerHeader.Set "Content-Type"
                  "application/json" } StatusOK) js0)).body = js0 := by
        simp [ResponseWriter.finishRequest, ResponseWriter.Write, ResponseWriter.WriteHeader,
          writeCorsHeaders, ResponseWriter.new]
      refine ⟨hb, rfl, fun unmarshal => ?_⟩
      exact congrArg unmarshal hb
    · intro e he
      exact absurd he (by simp)
  | error e0 =>
    simp only [serveHTTP, hroute, makeHttpHandler, Server.think, hdec, writeJSON, hm]
    refine ⟨_, rfl, rfl, rfl, rfl, rfl, rfl, ?_, ?_⟩
    · intro js hjs
      exact absurd hjs (by simp)
    · intro e _
      rfl

/-- Witness of C5 amended: the sample agent asked to think about `true`
answers with the serialized command, which the sample decoder of commands
reads back. -/
theorem think_decoded_witness :
    ∃ res, serveHTTP (Server.CreateRouter sampleDecode sampleMarshal) sampleServer sampleWorld
        (Request.mk "POST" "/think" "true") = some res ∧
      res.w.status = 200 ∧ res.w.body = "true" ∧ res.world.thinkCalls = [true] ∧
      res.world.ai = 1 ∧ sampleUnmarshal res.w.body = Except.ok (some true) := by
  obtain ⟨res, h, _, hs, _, hc, ha, hok, _⟩ :=
    think_decoded sampleDecode sampleMarshal sampleServer sampleWorld "true" true (by decide)
  obtain ⟨hb, _, hu⟩ := hok "true" (by decide)
  refine ⟨res, h, hs, hb, hc, ha, ?_⟩
  rw [hu sampleUnmarshal]
  decide

/-- C6. A think request whose body the decoder rejects with error `e`: the
routed handler returns, the response has status 500, content type
`text/plain; charset=utf-8` and the body `e` followed by a newline; the
decision component is not invoked, nothing is sent on any channel, no
outbound call is made, the receiver is unchanged, and the world differs
only by the log line `e`, so the next request is served from that state. -/
theorem think_malformed (decode : String → Except String RobotState)
    (marshal : Commands → Except String String) (s : Server σ RobotState Commands)
    (world : World σ RobotState) (body : String) (e : String)
    (hdec : decode body = Except.error e) :
    ∃ res, serveHTTP (Server.CreateRouter decode marshal) s world (Request.mk "POST" "/think" body)
        = some res ∧
      res.out = Outcome.returned none ∧
      res.w.status = 500 ∧
      res.w.body = e ++ "\n" ∧
      res.w.sentHeader.Get "Content-Type" = "text/plain; charset=utf-8" ∧
      res.world.thinkCalls = world.thinkCalls ∧
      res.world.ai = world.ai ∧
      res.world.chans = world.chans ∧
      res.world.posts = world.posts ∧
      res.world.log = world.log ++ [e] ∧
      res.s = s ∧
      (∀ q, serveHTTP (Server.CreateRouter decode marshal) res.s res.world q =
        serveHTTP (Server.CreateRouter decode marshal) s
          { world with log := world.log ++ [e] } q) := by
  have hroute : matchRoute (@Server.CreateRouter σ RobotState Commands decode marshal)
      (Request.mk "POST" "/think" body) =
      some ⟨"POST", "/think", makeHttpHandler "POST" "/think" (Server.think decode marshal)⟩ := rfl
  simp only [serveHTTP, hroute, makeHttpHandler, Server.think, hdec]
  refine ⟨_, rfl, rfl, rfl, ?_, rfl, rfl, rfl, rfl, rfl, rfl, rfl, fun q => rfl⟩
  simp [ResponseWriter.finishRequest, ResponseWriter.Write, ResponseWriter.WriteHeader,
    writeCorsHeaders, ResponseWriter.new, httpError, httpErrorReply]

/-- Witness of C6: the sample agent given a body that is not a state. -/
theorem think_malformed_witness :
    ∃ res, serveHTTP (Server.CreateRouter sampleDecode sampleMarshal) sampleServer sampleWorld
        (Request.mk "POST" "/think" "\x7b") = some res ∧
      res.w.status = 500 ∧
      res.w.body = "json: cannot unmarshal into Go value of type cylon.RobotState\n" ∧
      res.world.thinkCalls = [] := by
  obtain ⟨res, h, _, hs, hb, _, hc, _⟩ :=
    think_malformed sampleDecode sampleMarshal sampleServer sampleWorld "\x7b"
      "json: cannot unmarshal into Go value of type cylon.RobotState" (by decide)
  exact ⟨res, h, hs, hb, hc⟩

/-- C10. A think request whose body decodes to `state` while serializing the
decision component's result fails with error `e`: `think` itself returns no
error, so `makeHttpHandler` does not call `httpError`; the response keeps
the status 200 and the content type `application/json` written before the
serialization, its body is empty, and the failure shows only as the log
line `e`. -/
theorem think_marshal_failure (decode : String → Except String RobotState)
    (marshal : Commands → Except String String) (s : Server σ RobotState Commands)
    (world : World σ RobotState) (body : String) (state : RobotState) (e : String)
    (hdec : decode body = Except.ok state)
    (hmar : marshal (s.ai world.ai state).1 = Except.error e) :
    (Server.think decode marshal s (writeCorsHeaders ResponseWriter.new
        (Request.mk "POST" "/think" body)) (Request.mk "POST" "/think" body) [] world).out
      = Outcome.returned none ∧
    ∃ res, serveHTTP (Server.CreateRouter decode marshal) s world (Request.mk "POST" "/think" body)
        = some res ∧
      res.out = Outcome.returned none ∧
      res.w.status = 200 ∧
      res.w.body = "" ∧
      res.w.sentHeader.Get "Content-Type" = "application/json" ∧
      res.world.log = world.log ++ [e] ∧
      res.world.thinkCalls = world.thinkCalls ++ [state] := by
  have hroute : matchRoute (@Server.CreateRouter σ RobotState Commands decode marshal)
      (Request.mk "POST" "/think" body) =
      some ⟨"POST", "/think", makeHttpHandler "POST" "/think" (Server.think decode marshal)⟩ := rfl
  constructor
  · simp only [Server.think, hdec, writeJSON, hmar]
  · simp only [serveHTTP, hroute, makeHttpHandler, Server.think, hdec, writeJSON, hmar]
    exact ⟨_, rfl, rfl, rfl, rfl, rfl, rfl, rfl⟩

/-- Witness of C10: the sample agent asked about `false`, whose answer does
not serialize. -/
theorem think_marshal_failure_witness :
    ∃ res, serveHTTP (Server.CreateRouter sampleDecode sampleMarshal) sampleServer sampleWorld
        (Request.mk "POST" "/think" "false") = some res ∧
      res.w.status = 200 ∧ res.w.body = "" ∧
      res.world.log = ["json: unsupported value: NaN"] := by
  obtain ⟨_, res, h, _, hs, hb, _, hl, _⟩ :=
    think_marshal_failure sampleDecode sampleMarshal sampleServer sampleWorld "false" false
      "json: unsupported value: NaN" (by decide) (by decide)
  exact ⟨res, h, hs, hb, hl⟩

/-- A lower-case hexadecimal digit reads back as its value. -/
theorem hexVal_lowerhex (k : Nat) (hk : k < 16) : hexVal (lowerhex k) = some k := by
  interval_cases k <;> decide

/-- The escape `\u00XY` written for an ASCII character reads back as it. -/
theorem unicodeEscape_lowerhex (n : Nat) (h : n < 128) :
    unicodeEscape '0' '0' (lowerhex (n / 16)) (lowerhex (n % 16)) = some (Char.ofNat n) := by
  have h0 : hexVal '0' = some 0 := by decide
  have h1 := hexVal_lowerhex (n / 16) (by omega)
  have h2 := hexVal_lowerhex (n % 16) (by omega)
  have hn : ((0 * 16 + 0) * 16 + n / 16) * 16 + n % 16 = n := by omega
  simp only [unicodeEscape, h0, h1, h2, hn]
  have : ¬ (0xD800 ≤ n ∧ n < 0xE000) := by omega
  simp [this]

/-- One step of `readStringBody` on a non-empty input. -/
theorem readStringBody_cons (c : Char) (rest : List Char) :
    readStringBody (c :: rest) =
      if c = '"' then some ([], rest)
      else if c = '\\' then
        match rest with
        | [] => none
        | e :: rest1 =>
          if e = 'u' then
            match rest1 with
            | a :: b :: c2 :: d :: rest2 =>
              match unicodeEscape a b c2 d with
              | some ch => (readStringBody rest2).map (fun p => (ch :: p.1, p.2))
              | none => none
            | _ => none
          else
            match simpleEscape e with
            | some ch => (readStringBody rest1).map (fun p => (ch :: p.1, p.2))
            | none => none
      else if c.toNat < 32 then none
      else (readStringBody rest).map (fun p => (c :: p.1, p.2)) := by
  rw [readStringBody.eq_def]

/-- Reading a character that stands for itself. -/
theorem readStringBody_plain (c : Char) (tail : List Char) (hq : c ≠ '"') (hb : c ≠ '\\')
    (h32 : 32 ≤ c.toNat) :
    readStringBody (c :: tail) = (readStringBody tail).map (fun p => (c :: p.1, p.2)) := by
  have h32' : ¬ c.toNat < 32 := by omega
  rw [readStringBody_cons]
  simp only [hq, hb, h32', if_false]

/-- Reading a two-character escape. -/
theorem readStringBody_simple (e ch : Char) (tail : List Char) (he : e ≠ 'u')
    (hs : simpleEscape e = some ch) :
    readStringBody ('\\' :: e :: tail) = (readStringBody tail).map (fun p => (ch :: p.1, p.2)) := by
  rw [readStringBody_cons]
  have h1 : ¬ ('\\' = '"') := by decide
  simp only [h1, if_false, if_true, he, hs]

/-- Reading a six-character escape. -/
theorem readStringBody_unicode (a b c d ch : Char) (tail : List Char)
    (hs : unicodeEscape a b c d = some ch) :
    readStringBody ('\\' :: 'u' :: a :: b :: c :: d :: tail)
      = (readStringBody tail).map (fun p => (ch :: p.1, p.2)) := by
  rw [readStringBody_cons]
  have h1 : ¬ ('\\' = '"') := by decide
  simp only [h1, if_false, if_true, hs]

/-- What `json.Marshal` writes for a character reads back as that character. -/
theorem readStringBody_appendStringChar (c : Char) (tail : List Char) :
    readStringBody (appendStringChar c ++ tail)
      = (readStringBody tail).map (fun p => (c :: p.1, p.2)) := by
  have hof : Char.ofNat c.toNat = c := Char.ofNat_toNat c
  have hval : ∀ n, c.toNat = n → c = Char.ofNat n := fun n hn => by rw [← hn, hof]
  unfold appendStringChar
  by_cases hlt : c.toNat < 128
  · simp only [hlt, if_true]
    by_cases hsafe : htmlSafe c = true
    · simp only [hsafe, if_true]
      simp only [htmlSafe, Bool.and_eq_true, decide_eq_true_eq, bne_iff_ne, ne_eq] at hsafe
      exact readStringBody_plain c tail hsafe.1.1.1.1.2 hsafe.1.1.1.2 hsafe.1.1.1.1.1.1
    · simp only [hsafe, Bool.false_eq_true, if_false]
      by_cases hbq : (c == '\\' || c == '"') = true
      · simp only [hbq, if_true]
        simp only [Bool.or_eq_true, beq_iff_eq] at hbq
        rcases hbq with rfl | rfl
        · exact readStringBody_simple _ _ tail (by decide) (by decide)
        · exact readStringBody_simple _ _ tail (by decide) (by decide)
      · simp only [hbq, Bool.false_eq_true, if_false]
        by_cases h8 : c.toNat = 8
        · simp only [h8, beq_self_eq_true, if_true]
          rw [hval 8 h8]
          exact readStringBody_simple _ _ tail (by decide) (by decide)
        by_cases h12 : c.toNat = 12
        · simp only [h12, beq_self_eq_true, if_true]
          rw [hval 12 h12]
          exact readStringBody_simple _ _ tail (by decide) (by decide)
        by_cases h10 : c.toNat = 10
        · simp only [h10, beq_self_eq_true, if_true]
          rw [hval 10 h10]
          exact readStringBody_simple _ _ tail (by decide) (by decide)
        by_cases h13 : c.toNat = 13
        · simp only [h13, beq_self_eq_true, if_true]
          rw [hval 13 h13]
          exact readStringBody_simple _ _ tail (by decide) (by decide)
        by_cases h9 : c.toNat = 9
        · simp only [h9, beq_self_eq_true, if_true]
          rw [hval 9 h9]
          exact readStringBody_simple _ _ tail (by decide) (by decide)
        have e8 : (c.toNat == 8) = false := by simpa using h8
        have e12 : (c.toNat == 12) = false := by simpa using h12
        have e10 : (c.toNat == 10) = false := by simpa using h10
        have e13 : (c.toNat == 13) = false := by simpa using h13
        have e9 : (c.toNat == 9) = false := by simpa using h9
        simp only [e8, e12, e10, e13, e9, Bool.false_eq_true, if_false]
        have hu := unicodeEscape_lowerhex c.toNat hlt
        rw [hof] at hu
        exact readStringBody_unicode _ _ _ _ _ tail hu
  · simp only [hlt, if_false]
    by_cases h28 : c.toNat = 0x2028
    · simp only [h28, beq_self_eq_true, if_true]
      rw [hval _ h28]
      exact readStringBody_unicode _ _ _ _ _ tail (by decide)
    by_cases h29 : c.toNat = 0x2029
    · have e28 : (c.toNat == 0x2028) = false := by simpa using h28
      simp only [e28, Bool.false_eq_true, if_false, h29, beq_self_eq_true, if_true]
      rw [hval _ h29]
      exact readStringBody_unicode _ _ _ _ _ tail (by decide)
    have e28 : (c.toNat == 0x2028) = false := by simpa using h28
    have e29 : (c.toNat == 0x2029) = false := by simpa using h29
    simp only [e28, e29, Bool.false_eq_true, if_false]
    have hq : c ≠ '"' := by
      intro h; apply hlt; rw [h]; decide
    have hb : c ≠ '\\' := by
      intro h; apply hlt; rw [h]; decide
    exact readStringBody_plain c tail hq hb (by omega)

/-- What `json.Marshal` writes for a text, closed by a quote, reads back as
that text. -/
theorem readStringBody_flatMap (cs rest : List Char) :
    readStringBody (cs.flatMap appendStringChar ++ '"' :: rest) = some (cs, rest) := by
  induction cs with
  | nil => simp [readStringBody_cons]
  | cons c cs ih =>
    rw [List.flatMap_cons, List.append_assoc, readStringBody_appendStringChar, ih]
    rfl

/-- The string literal `json.Marshal` writes reads back as the string. -/
theorem readString_appendString (src : String) (rest : List Char) :
    readString (appendString src ++ rest) = some (src, rest) := by
  have h : appendString src ++ rest = '"' :: (src.toList.flatMap appendStringChar ++ '"' :: rest) := by
    simp [appendString]
  rw [h]
  simp only [readString, readStringBody_flatMap]
  rfl

/-- A plain character is written as it is. -/
theorem appendStringChar_of_plain (c : Char) (h : jsonPlain c = true) :
    appendStringChar c = [c] := by
  unfold appendStringChar
  simp only [jsonPlain, Bool.or_eq_true, Bool.and_eq_true, decide_eq_true_eq, bne_iff_ne,
    ne_eq] at h
  rcases h with h | ⟨⟨h1, h2⟩, h3⟩
  · have hlt : c.toNat < 128 := by
      simp only [htmlSafe, Bool.and_eq_true, decide_eq_true_eq] at h
      exact h.1.1.1.1.1.2
    simp [hlt, h]
  · have hlt : ¬ c.toNat < 128 := by omega
    simp [hlt, h2, h3]

/-- A text of plain characters is written between quotes as it is. -/
theorem appendString_of_plain (src : String) (h : ∀ c ∈ src.toList, jsonPlain c = true) :
    appendString src = ['"'] ++ src.toList ++ ['"'] := by
  have hf : ∀ l : List Char, (∀ c ∈ l, jsonPlain c = true) → l.flatMap appendStringChar = l := by
    intro l
    induction l with
    | nil => intro _; rfl
    | cons c l ih =>
      intro hl
      rw [List.flatMap_cons, appendStringChar_of_plain c (hl c (List.mem_cons_self c l)),
        ih (fun d hd => hl d (List.mem_cons_of_mem c hd))]
      rfl
  simp only [appendString, hf _ h]

/-- The join body reads back as the object with the two members `endpoint`
and `match`, in that order, holding the two strings given. -/
theorem readObject_marshalJoin (j : joinMatchRequestMessage) :
    readObject (marshalJoin j) = some [("endpoint", j.Endpoint), ("match", j.Match)] := by
  have hk1 : "\x7b\"endpoint\":".toList = '\x7b' :: (appendString "endpoint" ++ [':']) := by decide
  have hk2 : ",\"match\":".toList = ',' :: (appendString "match" ++ [':']) := by decide
  have hdata : (marshalJoin j).toList = '\x7b' :: (appendString "endpoint" ++
      (':' :: (appendString j.Endpoint ++ (',' :: (appendString "match" ++
        (':' :: (appendString j.Match ++ ['\x7d']))))))) := by
    rw [show (marshalJoin j).toList = "\x7b\"endpoint\":".toList ++ appendString j.Endpoint
      ++ ",\"match\":".toList ++ appendString j.Match ++ ['\x7d'] from rfl, hk1, hk2]
    simp only [List.cons_append, List.append_assoc, List.nil_append]
  have hne : appendString "endpoint" ++
      (':' :: (appendString j.Endpoint ++ (',' :: (appendString "match" ++
        (':' :: (appendString j.Match ++ ['\x7d'])))))) ≠ ['\x7d'] := by
    simp [appendString]
  have hlen : 2 ≤ (appendString "endpoint" ++
      (':' :: (appendString j.Endpoint ++ (',' :: (appendString "match" ++
        (':' :: (appendString j.Match ++ ['\x7d']))))))).length := by
    simp only [appendString, List.length_append, List.length_cons, List.length_nil]
    omega
  obtain ⟨n, hn⟩ : ∃ n, (appendString "endpoint" ++
      (':' :: (appendString j.Endpoint ++ (',' :: (appendString "match" ++
        (':' :: (appendString j.Match ++ ['\x7d']))))))).length = n + 2 :=
    ⟨_, (Nat.sub_add_cancel hlen).symm⟩
  unfold readObject
  rw [hdata]
  split
  · rename_i heq
    simp only [List.cons.injEq, true_and] at heq
    exact absurd heq hne
  · rename_i cs heq
    simp only [List.cons.injEq, true_and] at heq
    subst heq
    rw [hn]
    simp only [readMembers, readString_appendString]
    rfl
  · rename_i h1 h2
    exact absurd rfl (h2 _)

/-- C3. When the coordinator address parses, the body `Join` sends (with
content type `application/json`) is `json.Marshal` of the join message, and
that text is the JSON object with exactly the two members `endpoint`, holding
the server's local endpoint, and `match`, holding the match identifier, in
that order: reading the text back gives exactly these two members with the
two strings unchanged. When the two strings hold only characters that JSON
writes as they are, the text is literally the two strings between the
fixed pieces. -/
theorem join_body (urlParse : String → Except String URL)
    (httpPost : Post → Except String Response) (s : Server σ RobotState Commands)
    (matchID : String) (world : World σ RobotState) (u : URL)
    (hparse : urlParse s.remoteRoot = Except.ok u) :
    (Server.Join urlParse httpPost s matchID world).world.posts.map
        (fun p => (p.contentType, p.body))
      = world.posts.map (fun p => (p.contentType, p.body)) ++
        [("application/json", marshalJoin { Endpoint := s.localRoot, Match := matchID })] ∧
    readObject (marshalJoin { Endpoint := s.localRoot, Match := matchID })
      = some [("endpoint", s.localRoot), ("match", matchID)] ∧
    ((∀ c ∈ s.localRoot.toList ++ matchID.toList, jsonPlain c = true) →
      marshalJoin { Endpoint := s.localRoot, Match := matchID }
        = "\x7b\"endpoint\":\"" ++ s.localRoot ++ "\",\"match\":\"" ++ matchID ++ "\"\x7d") := by
  refine ⟨?_, readObject_marshalJoin _, ?_⟩
  · simp only [Server.Join, hparse]
    split
    · simp
    · split <;> simp
  · intro hplain
    have h1 := appendString_of_plain s.localRoot
      (fun c hc => hplain c (List.mem_append_left _ hc))
    have h2 := appendString_of_plain matchID
      (fun c hc => hplain c (List.mem_append_right _ hc))
    apply String.ext
    simp only [marshalJoin, h1, h2, String.data_append]
    simp [String.toList]

/-- Witness of C3: the sample server, `http://agent:9000`, joining
`match-42`. -/
theorem join_body_witness :
    (Server.Join Parse (fun _ => Except.ok ⟨200⟩) sampleServer "match-42"
        sampleWorld).world.posts.map (fun p => (p.contentType, p.body))
      = [("application/json",
          "\x7b\"endpoint\":\"http://agent:9000\",\"match\":\"match-42\"\x7d")] ∧
    readObject "\x7b\"endpoint\":\"http://agent:9000\",\"match\":\"match-42\"\x7d"
      = some [("endpoint", "http://agent:9000"), ("match", "match-42")] := by
  have h := join_body Parse (fun _ => Except.ok ⟨200⟩) sampleServer "match-42" sampleWorld
    { URL.zero with Scheme := "http", Host := "coord:8000" } (by decide)
  exact ⟨h.1, h.2.1⟩

/-- C2. When the coordinator address parses to `u` and the outbound call
completes with response `r`, `Join` returns nil exactly when the status code
of `r` is 200, and for any other code it returns the error whose message is
`expected HTTP 200 - OK, got ` followed by the code in decimal. -/
theorem join_status_code (urlParse : String → Except String URL)
    (httpPost : Post → Except String Response) (s : Server σ RobotState Commands)
    (matchID : String) (world : World σ RobotState) (u : URL) (r : Response)
    (hparse : urlParse s.remoteRoot = Except.ok u)
    (hpost : httpPost { url := URL.string { u with Path := "join" },
                        contentType := "application/json",
                        body := marshalJoin { Endpoint := s.localRoot, Match := matchID } }
              = Except.ok r) :
    ((Server.Join urlParse httpPost s matchID world).err = none ↔ r.StatusCode = 200) ∧
    (r.StatusCode ≠ 200 →
      (Server.Join urlParse httpPost s matchID world).err
        = some ("expected HTTP 200 - OK, got " ++ toString r.StatusCode)) := by
  simp only [Server.Join, hparse, hpost, StatusOK]
  by_cases h : r.StatusCode = 200
  · simp [h]
  · simp [h]

/-- Witness of C2: the sample server joining a coordinator that answers 404. -/
theorem join_status_code_witness :
    (Server.Join Parse (fun _ => Except.ok ⟨404⟩) sampleServer "match-42" sampleWorld).err
      = some "expected HTTP 200 - OK, got 404" := by
  have h := (join_status_code Parse (fun _ => Except.ok ⟨404⟩) sampleServer "match-42" sampleWorld
    { URL.zero with Scheme := "http", Host := "coord:8000" } ⟨404⟩ (by decide) rfl).2 (by decide)
  exact h

/-- C9. `Join` makes a single attempt. When the coordinator address does not
parse, the parse error is returned and no outbound call is made. When it
parses, exactly one outbound call is added to those already made, and if
that call fails its error is returned (with still only that one call). -/
theorem join_single_attempt (urlParse : String → Except String URL)
    (httpPost : Post → Except String Response) (s : Server σ RobotState Commands)
    (matchID : String) (world : World σ RobotState) :
    (∀ e, urlParse s.remoteRoot = Except.error e →
      (Server.Join urlParse httpPost s matchID world).err = some e ∧
      (Server.Join urlParse httpPost s matchID world).world.posts = world.posts) ∧
    (∀ u, urlParse s.remoteRoot = Except.ok u →
      ∃ call : Post,
        (Server.Join urlParse httpPost s matchID world).world.posts = world.posts ++ [call] ∧
        ∀ e, httpPost call = Except.error e →
          (Server.Join urlParse httpPost s matchID world).err = some e) := by
  constructor
  · intro e he
    simp only [Server.Join, he, and_self]
  · intro u hu
    refine ⟨{ url := URL.string { u with Path := "join" }, contentType := "application/json",
              body := marshalJoin { Endpoint := s.localRoot, Match := matchID } }, ?_, ?_⟩
    · simp only [Server.Join, hu]
      split
      · rfl
      · split <;> rfl
    · intro e he
      simp only [Server.Join, hu, he]

/-- Witness of C9: an address without a scheme before its colon is refused
by the parser and nothing is posted; an unreachable coordinator costs one
call. -/
theorem join_single_attempt_witness :
    ((Server.Join Parse (fun _ => Except.error "dial tcp: connection refused")
        (NewServer sampleThink ":8000" "http://agent:9000" 0) "match-42" sampleWorld).err
      = some "parse \":8000\": missing protocol scheme" ∧
     (Server.Join Parse (fun _ => Except.error "dial tcp: connection refused")
        (NewServer sampleThink ":8000" "http://agent:9000" 0) "match-42" sampleWorld).world.posts
      = []) ∧
    (∃ call : Post,
      (Server.Join Parse (fun _ => Except.error "dial tcp: connection refused")
        sampleServer "match-42" sampleWorld).world.posts = [call] ∧
      (Server.Join Parse (fun _ => Except.error "dial tcp: connection refused")
        sampleServer "match-42" sampleWorld).err = some "dial tcp: connection refused") := by
  constructor
  · exact (join_single_attempt Parse (fun _ => Except.error "dial tcp: connection refused")
      (NewServer sampleThink ":8000" "http://agent:9000" 0) "match-42" sampleWorld).1
        "parse \":8000\": missing protocol scheme" (by decide)
  · obtain ⟨call, h1, h2⟩ :=
      (join_single_attempt Parse (fun _ => Except.error "dial tcp: connection refused")
        sampleServer "match-42" sampleWorld).2
        { URL.zero with Scheme := "http", Host := "coord:8000" } (by decide)
    exact ⟨call, h1, h2 _ rfl⟩

/-- A raw path that starts with a slash does not stand for the path `join`. -/
theorem unescapesTo_slash_join (rest : List Char) :
    unescapesTo ('/' :: rest) "join".toList encodePath = false := by
  have hb : utf8Bytes ('/' :: rest) = 47 :: utf8Bytes rest := by
    simp [utf8Bytes, utf8EncodeChar]
  have hj : utf8Bytes "join".toList = [106, 111, 105, 110] := by decide
  simp only [unescapesTo, hb, hj, unescape]
  cases unescapeCheck encodePath (47 :: utf8Bytes rest) with
  | error e => rfl
  | ok v => simp [unescapeBytes]

/-- The escaped path of an address whose path was set to `join`, when the
raw path of the address is empty or starts with a slash. -/
theorem escapedPath_join (u : URL)
    (hraw : u.RawPath = "" ∨ u.RawPath.toList.head? = some '/') :
    URL.EscapedPath { u with Path := "join" } = "join".toList := by
  have hesc : escape ['j', 'o', 'i', 'n'] encodePath = ['j', 'o', 'i', 'n'] := by decide
  rcases hraw with h | h
  · simp [URL.EscapedPath, h, hesc]
  · have hne : u.RawPath.toList ≠ [] := by
      intro h0; rw [h0] at h; simp at h
    obtain ⟨c, rest, hcr⟩ := List.exists_cons_of_ne_nil hne
    rw [hcr] at h
    simp only [List.head?_cons, Option.some.injEq] at h
    subst h
    have hu : unescapesTo u.RawPath.data ['j', 'o', 'i', 'n'] encodePath = false := by
      have h1 : u.RawPath.data = '/' :: rest := hcr
      rw [h1]; exact unescapesTo_slash_join rest
    simp [URL.EscapedPath, hu, hesc]

/-- C4, as the claim states it, fails: for the coordinator base address
`http://coord:8000/api`, which parses, `Join` posts to
`http://coord:8000/join`, not to `http://coord:8000/api/join`. -/
theorem join_drops_base_path :
    ((Server.Join Parse (fun _ => Except.ok ⟨200⟩)
        (NewServer sampleThink "http://coord:8000/api" "http://agent:9000" 0) "match-42"
        sampleWorld).world.posts.map Post.url) = ["http://coord:8000/join"] ∧
    ((Server.Join Parse (fun _ => Except.ok ⟨200⟩)
        (NewServer sampleThink "http://coord:8000/api" "http://agent:9000" 0) "match-42"
        sampleWorld).world.posts.map Post.url) ≠ ["http://coord:8000/api" ++ "/join"] := by
  decide

/-- C4, amended. For every coordinator base address that parses, to `u`,
the URL `Join` posts to is `u` with its path replaced by `join`, written
out by `URL.String`. When `u` is not opaque and has a host (and a raw
path that is empty or starts with a slash, as parsing gives), that URL is
the scheme and authority of the base, then `/join`, then the query and
fragment of the base: the existing path of the base is dropped. -/
theorem join_url_replaces_path (urlParse : String → Except String URL)
    (httpPost : Post → Except String Response) (s : Server σ RobotState Commands)
    (matchID : String) (world : World σ RobotState) (u : URL)
    (hparse : urlParse s.remoteRoot = Except.ok u) :
    (Server.Join urlParse httpPost s matchID world).world.posts.map Post.url
      = world.posts.map Post.url ++ [URL.string { u with Path := "join" }] ∧
    (u.Opaque = "" → u.Host ≠ "" →
      (u.RawPath = "" ∨ u.RawPath.toList.head? = some '/') →
      URL.string u = String.mk (u.beforePath ++ u.pathPart ++ u.afterPath) ∧
      URL.string { u with Path := "join" }
        = String.mk (u.beforePath ++ "/join".toList ++ u.afterPath)) := by
  constructor
  · simp only [Server.Join, hparse]
    split
    · simp
    · split <;> simp
  · intro hop hhost hraw
    have hpath := escapedPath_join u hraw
    constructor
    · simp [URL.string, hop]
    · have hbefore : URL.beforePath { u with Path := "join" } = u.beforePath := by
        simp [URL.beforePath, hhost]
      have hafter : URL.afterPath { u with Path := "join" } = u.afterPath := rfl
      have hpp : URL.pathPart { u with Path := "join" } = "/join".toList := by
        have hne : u.beforePath ≠ [] := by
          simp [URL.beforePath, hhost]
        simp only [URL.pathPart, hpath, hbefore]
        simp [hhost, hne]
      simp only [URL.string, hbefore, hafter, hpp]
      simp [hop]

/-- Witness of C4 amended: for the base address `http://coord:8000`, which
has no path, the URL posted to is `http://coord:8000/join`. -/
theorem join_url_replaces_path_witness :
    (Server.Join Parse (fun _ => Except.ok ⟨200⟩) sampleServer "match-42"
        sampleWorld).world.posts.map Post.url = ["http://coord:8000/join"] ∧
    URL.string { URL.zero with Scheme := "http", Host := "coord:8000", Path := "join" }
      = "http://coord:8000/join" := by
  have h := join_url_replaces_path Parse (fun _ => Except.ok ⟨200⟩) sampleServer "match-42"
    sampleWorld { URL.zero with Scheme := "http", Host := "coord:8000" } (by decide)
  refine ⟨h.1, ?_⟩
  have h2 := (h.2 rfl (by decide) (Or.inl rfl)).2
  exact h2

/-- A channel with room takes a send: the value is appended to the log of
completed sends and the room shrinks by one. -/
theorem Chan.send_of_room (c : Chan) (v : Bool) (h : 0 < c.room) :
    ∃ c', c.send v = SendResult.ok c' ∧ c'.sent = c.sent ++ [v] ∧ c'.room + 1 = c.room := by
  unfold Chan.room at h
  by_cases hn : c.isNil = true
  · simp [hn] at h
  by_cases hc : c.closed = true
  · simp [hc] at h
  simp only [hn, hc, Bool.or_self, Bool.false_eq_true, ↓reduceIte] at h
  by_cases hr : 0 < c.recvq
  · refine ⟨{ c with recvq := c.recvq - 1, sent := c.sent ++ [v] }, ?_, rfl, ?_⟩
    · simp [Chan.send, hn, hc, hr]
    · simp only [Chan.room, hn, hc, Bool.or_self, Bool.false_eq_true, ↓reduceIte]
      omega
  · refine ⟨{ c with buffered := c.buffered + 1, sent := c.sent ++ [v] }, ?_, rfl, ?_⟩
    · have hb : c.buffered < c.cap := by omega
      simp [Chan.send, hn, hc, hr, hb]
    · simp only [Chan.room, hn, hc, Bool.or_self, Bool.false_eq_true, ↓reduceIte]
      omega

/-- The route of an End request is the wrapped `end` handler. -/
theorem matchRoute_end (decode : String → Except String RobotState)
    (marshal : Commands → Except String String) (body : String) :
    matchRoute (@Server.CreateRouter σ RobotState Commands decode marshal) (Request.mk "POST" "/end" body) =
      some ⟨"POST", "/end", makeHttpHandler "POST" "/end" Server.end'⟩ := rfl

/-- One End request on a channel with room: it is answered 200, the receiver
is unchanged and the channel has taken one more value. -/
theorem serveHTTP_end_of_room (decode : String → Except String RobotState)
    (marshal : Commands → Except String String) (s : Server σ RobotState Commands)
    (world : World σ RobotState) (body : String) (h : 0 < (world.chans s.done).room) :
    ∃ res, serveHTTP (Server.CreateRouter decode marshal) s world (Request.mk "POST" "/end" body)
        = some res ∧
      answeredWith 200 (some res) ∧ res.s = s ∧
      (res.world.chans s.done).sent = (world.chans s.done).sent ++ [true] ∧
      (res.world.chans s.done).room + 1 = (world.chans s.done).room := by
  obtain ⟨c', hsend, hsent, hroom⟩ := Chan.send_of_room (world.chans s.done) true h
  simp only [serveHTTP, matchRoute_end, makeHttpHandler, Server.end', hsend]
  refine ⟨_, rfl, ⟨_, rfl, rfl, rfl, rfl⟩, rfl, ?_, ?_⟩
  · simpa using hsent
  · simpa using hroom

/-- C1, as the claim states it, fails. With a shutdown channel that has two
buffer slots, two End requests in a row are both answered 200 and two
values are written, not one. With the usual unbuffered channel on which the
main goroutine waits once, the first End is answered and the second one is
not: its handler stays blocked in the send. -/
theorem end_twice_not_fire_once :
    ((serveAll (Server.CreateRouter sampleDecode sampleMarshal) sampleServer
        { sampleWorld with chans := fun _ => Chan.make 2 0 }
        [Request.mk "POST" "/end" "", Request.mk "POST" "/end" ""]).map
          (Option.map (fun res => (res.out, res.w.status)))
      = [some (Outcome.returned none, 200), some (Outcome.returned none, 200)] ∧
     ((serveState (Server.CreateRouter sampleDecode sampleMarshal) sampleServer
        { sampleWorld with chans := fun _ => Chan.make 2 0 }
        [Request.mk "POST" "/end" "", Request.mk "POST" "/end" ""]).2.chans 0).sent.length = 2) ∧
    ((serveAll (Server.CreateRouter sampleDecode sampleMarshal) sampleServer sampleWorld
        [Request.mk "POST" "/end" "", Request.mk "POST" "/end" ""]).map
          (Option.map (fun res => res.out))
      = [some (Outcome.returned none), some Outcome.blocked]) := by
  decide

/-- C1, amended. `End` has no fire-once guard: each End request sets the
status 200 and then sends `true` on `s.done`. So when the shutdown channel
can take as many values as there are End requests (waiting receivers plus
free buffer slots), every request is answered with status 200, the receiver
is unchanged, and the values written number one per request. -/
theorem end_writes_once_per_request (decode : String → Except String RobotState)
    (marshal : Commands → Except String String) (reqs : List Request)
    (hreqs : ∀ q ∈ reqs, q.Method = "POST" ∧ q.Path = "/end") :
    ∀ (s : Server σ RobotState Commands) (world : World σ RobotState),
      reqs.length ≤ (world.chans s.done).room →
      (∀ res ∈ serveAll (Server.CreateRouter decode marshal) s world reqs, answeredWith 200 res) ∧
      (serveAll (Server.CreateRouter decode marshal) s world reqs).length = reqs.length ∧
      (serveState (Server.CreateRouter decode marshal) s world reqs).1 = s ∧
      ((serveState (Server.CreateRouter decode marshal) s world reqs).2.chans s.done).sent
        = (world.chans s.done).sent ++ List.replicate reqs.length true := by
  induction reqs with
  | nil =>
    intro s world _
    simp [serveAll, serveState]
  | cons q rs ih =>
    intro s world hroom
    obtain ⟨hm, hp⟩ := hreqs q (List.mem_cons_self q rs)
    obtain ⟨m, p, body⟩ := q
    simp only at hm hp
    subst hm hp
    have hpos : 0 < (world.chans s.done).room := by
      simp only [List.length_cons] at hroom
      omega
    obtain ⟨res, hserve, hans, hs, hsent, hroom'⟩ :=
      serveHTTP_end_of_room decode marshal s world body hpos
    have hrest : rs.length ≤ (res.world.chans res.s.done).room := by
      rw [hs]
      simp only [List.length_cons] at hroom
      omega
    obtain ⟨h1, h2, h3, h4⟩ :=
      ih (fun q hq => hreqs q (List.mem_cons_of_mem _ hq)) res.s res.world hrest
    simp only [serveAll, serveState, hserve]
    refine ⟨?_, ?_, ?_, ?_⟩
    · intro x hx
      rcases List.mem_cons.1 hx with rfl | hx
      · exact hans
      · exact h1 x hx
    · simp [h2]
    · rw [h3, hs]
    · rw [hs] at h4
      rw [hs, h4, hsent]
      simp [List.replicate_succ]

/-- Witness of C1 amended: three End requests on a shutdown channel with
three buffer slots are all answered and write three values. -/
theorem end_writes_once_per_request_witness :
    ((serveState (Server.CreateRouter sampleDecode sampleMarshal) sampleServer
        { sampleWorld with chans := fun _ => Chan.make 3 0 }
        (List.replicate 3 (Request.mk "POST" "/end" ""))).2.chans 0).sent
      = [true, true, true] := by
  have h := (end_writes_once_per_request sampleDecode sampleMarshal
    (List.replicate 3 (Request.mk "POST" "/end" ""))
    (by intro q hq; rw [List.eq_of_mem_replicate hq]; exact ⟨rfl, rfl⟩)
    sampleServer { sampleWorld with chans := fun _ => Chan.make 3 0 } (by decide)).2.2.2
  exact h

/-- Setting one key leaves the values of every other key as they were. -/
theorem Header.Values_Set_of_ne (h : Header) (k v k' : String) (hne : k ≠ k') :
    (h.Set k v).Values k' = h.Values k' := by
  obtain ⟨es⟩ := h
  have hfind : ∀ l : List (String × List String),
      (List.filter (fun e => !(e.1 == k)) l ++ [(k, [v])]).find? (fun e => e.1 == k')
        = l.find? (fun e => e.1 == k') := by
    intro l
    induction l with
    | nil => simp [hne]
    | cons e l ih =>
      rw [List.filter_cons]
      by_cases hek : (e.1 == k) = true
      · have hp : (e.1 == k') = false := by
          rw [beq_eq_false_iff_ne]
          intro h'
          exact hne ((beq_iff_eq.1 hek).symm.trans h')
        simp only [hek, Bool.not_true, Bool.false_eq_true, ↓reduceIte, List.find?_cons, hp, ih]
      · have hek0 : (e.1 == k) = false := by simpa using hek
        simp only [hek0, Bool.not_false, ↓reduceIte, List.cons_append, List.find?_cons, ih]
  simp only [Header.Values, Header.Set, Header.Del, hfind]

/-- Setting a key other than the three cross-origin ones keeps the
cross-origin entries. -/
theorem carriesCors_Set (hd : Header) (hc : carriesCors hd) (k v : String)
    (h1 : k ≠ "Access-Control-Allow-Origin") (h2 : k ≠ "Access-Control-Allow-Headers")
    (h3 : k ≠ "Access-Control-Allow-Methods") : carriesCors (hd.Set k v) := by
  unfold carriesCors
  rw [Header.Values_Set_of_ne _ _ _ _ h1, Header.Values_Set_of_ne _ _ _ _ h2,
    Header.Values_Set_of_ne _ _ _ _ h3]
  exact hc

/-- Whatever a handler that keeps the cross-origin entries does, and whether
it returns an error or not, the response `makeHttpHandler` produces for a
new request carries them. -/
theorem cors_of_keepsCors (h : HttpApiFunc σ RobotState Commands) (hk : keepsCors h)
    (method route : String) (s : Server σ RobotState Commands) (r : Request)
    (world : World σ RobotState) :
    carriesCors (makeHttpHandler method route h s ResponseWriter.new r
      world).w.finishRequest.sentHeader := by
  have h0 : carriesCors (writeCorsHeaders ResponseWriter.new r).handlerHeader := by
    have hh : (writeCorsHeaders ResponseWriter.new r).handlerHeader =
        ⟨[("Access-Control-Allow-Origin", ["*"]),
          ("Access-Control-Allow-Headers", ["Origin, X-Requested-With, Content-Type, Accept"]),
          ("Access-Control-Allow-Methods", ["GET, POST, DELETE, PUT, OPTIONS"])]⟩ := rfl
    rw [hh]
    refine ⟨?_, ?_, ?_⟩ <;> decide
  obtain ⟨hlive, hsent⟩ := hk s (writeCorsHeaders ResponseWriter.new r) r [] world h0 rfl
  simp only [makeHttpHandler]
  generalize h s (writeCorsHeaders ResponseWriter.new r) r [] world = res at hlive hsent
  obtain ⟨rs, rw', rworld, rout⟩ := res
  simp only at hlive hsent
  have hfin : ∀ w : ResponseWriter, carriesCors w.handlerHeader →
      (w.wroteHeader = true → carriesCors w.sentHeader) →
      carriesCors w.finishRequest.sentHeader := by
    intro w h1 h2
    unfold ResponseWriter.finishRequest ResponseWriter.WriteHeader
    by_cases hw : w.wroteHeader = true
    · simp [hw, h2 hw]
    · simp [hw, h1]
  cases rout with
  | blocked => exact hfin _ hlive hsent
  | panicked msg => exact hfin _ hlive hsent
  | returned err =>
    cases err with
    | none => exact hfin _ hlive hsent
    | some e =>
      simp only [httpError, httpErrorReply]
      have hc2 : carriesCors ((rw'.handlerHeader.Set "Content-Type"
          "text/plain; charset=utf-8").Set "X-Content-Type-Options" "nosniff") :=
        carriesCors_Set _ (carriesCors_Set _ hlive _ _ (by decide) (by decide) (by decide)) _ _
          (by decide) (by decide) (by decide)
      by_cases hw : rw'.wroteHeader = true
      · have := hsent hw
        simp [ResponseWriter.finishRequest, ResponseWriter.Write, ResponseWriter.WriteHeader, hw,
          this]
      · simp [ResponseWriter.finishRequest, ResponseWriter.Write, ResponseWriter.WriteHeader, hw,
          hc2]

/-- The handler `status` keeps the cross-origin entries. -/
theorem keepsCors_status : keepsCors (@Server.status σ RobotState Commands) := by
  intro s w r vars world hc hw
  simp [Server.status, ResponseWriter.WriteHeader, hw, hc]

/-- The handler `start` keeps the cross-origin entries. -/
theorem keepsCors_start : keepsCors (@Server.start σ RobotState Commands) := by
  intro s w r vars world hc hw
  simp [Server.start, ResponseWriter.WriteHeader, hw, hc]

/-- The handler `end` keeps the cross-origin entries. -/
theorem keepsCors_end : keepsCors (@Server.end' σ RobotState Commands) := by
  intro s w r vars world hc hw
  simp only [Server.end']
  split <;> simp [ResponseWriter.WriteHeader, hw, hc]

/-- The handler `think` keeps the cross-origin entries, whatever the codec
and the decision component do. -/
theorem keepsCors_think (decode : String → Except String RobotState)
    (marshal : Commands → Except String String) :
    keepsCors (@Server.think σ RobotState Commands decode marshal) := by
  intro s w r vars world hc hw
  have hj := carriesCors_Set _ hc "Content-Type" "application/json"
    (by decide) (by decide) (by decide)
  simp only [Server.think]
  cases decode r.Body with
  | error e => simp [hw, hc]
  | ok state =>
    simp only [writeJSON]
    cases marshal (s.ai world.ai state).1 with
    | error e => simp [ResponseWriter.Write, ResponseWriter.WriteHeader, hw, hj]
    | ok val => simp [ResponseWriter.Write, ResponseWriter.WriteHeader, hw, hj]

/-- C8. Every response produced through `makeHttpHandler` for a handler the
router wraps (`status` under GET and POST, `think`, `end`, `start`), for
every request, receiver, world, codec and decision component, and so
whether the handler succeeds or returns an error, is sent with the headers
Access-Control-Allow-Origin `*`, Access-Control-Allow-Headers
`Origin, X-Requested-With, Content-Type, Accept` and
Access-Control-Allow-Methods `GET, POST, DELETE, PUT, OPTIONS`. -/
theorem cors_on_every_response (decode : String → Except String RobotState)
    (marshal : Commands → Except String String) (route : Route σ RobotState Commands)
    (hroute : route ∈ Server.CreateRouter decode marshal) (s : Server σ RobotState Commands)
    (r : Request) (world : World σ RobotState) :
    carriesCors (route.handler s ResponseWriter.new r world).w.finishRequest.sentHeader := by
  simp only [Server.CreateRouter, List.mem_cons, List.mem_singleton, List.mem_nil_iff,
    or_false] at hroute
  rcases hroute with rfl | rfl | rfl | rfl | rfl
  · exact cors_of_keepsCors _ keepsCors_status "GET" "/status" s r world
  · exact cors_of_keepsCors _ keepsCors_status "POST" "/status" s r world
  · exact cors_of_keepsCors _ (keepsCors_think decode marshal) "POST" "/think" s r world
  · exact cors_of_keepsCors _ keepsCors_end "POST" "/end" s r world
  · exact cors_of_keepsCors _ keepsCors_start "POST" "/start" s r world

/-- Witness of C8: the error reply to a malformed think request carries the
three cross-origin headers. -/
theorem cors_on_every_response_witness :
    carriesCors ((makeHttpHandler "POST" "/think" (Server.think sampleDecode sampleMarshal)
      sampleServer ResponseWriter.new (Request.mk "POST" "/think" "\x7b")
      sampleWorld).w.finishRequest.sentHeader) ∧
    (makeHttpHandler "POST" "/think" (Server.think sampleDecode sampleMarshal)
      sampleServer ResponseWriter.new (Request.mk "POST" "/think" "\x7b")
      sampleWorld).w.status = 500 :=
  ⟨cors_on_every_response sampleDecode sampleMarshal
    ⟨"POST", "/think", makeHttpHandler "POST" "/think" (Server.think sampleDecode sampleMarshal)⟩
    (by simp [Server.CreateRouter]) sampleServer (Request.mk "POST" "/think" "\x7b") sampleWorld,
   by decide⟩

end Properties

end Cylon
